import Mathlib

/-!
Verification of the Shift Segmentation & Overtime Classification Engine
(`app_streamlit.py`).

The Python source is shallowly embedded as follows.

* A calendar date (`datetime.date`) is a `Fecha` structure `(year, month, day)`;
  date arithmetic, ordering and weekday computation go through the epoch-day
  number `toEpochDay` (days since 1970-01-01, Gregorian calendar).  Python's
  `date.weekday()` (Monday = 0 … Sunday = 6) becomes `weekday`.
* A `datetime` instant is an integer number of minutes since the epoch
  (all instants in the program have minute granularity, since parsed times
  are `HH:MM`); `dt.date()` is `t / 1440` and the `//`, `%` of Python are the
  `/`, `%` of `ℤ` (both are floor operations for positive divisors).
* Hours (Python floats) are rationals `ℚ`; the float arithmetic performed by
  the source (sums, `min`, `max`, division of a whole number of minutes
  by 60) is exact on these values, so `ℚ` models it faithfully.
* Fallible code (`raise ValueError`) returns `Except String`.
-/

/-- A calendar date, as Python's `datetime.date(year, month, day)`. -/
structure Fecha where
  year : ℤ
  month : ℤ
  day : ℤ
deriving DecidableEq, Repr

/-- Days since 1970-01-01 of a Gregorian calendar date (Howard Hinnant's
`days_from_civil`); models the linear order and day arithmetic of
`datetime.date`. -/
def toEpochDay (f : Fecha) : ℤ :=
  let y : ℤ := if f.month ≤ 2 then f.year - 1 else f.year
  let era : ℤ := y / 400
  let yoe : ℤ := y - era * 400
  let mp : ℤ := (f.month + 9) % 12
  let doy : ℤ := (153 * mp + 2) / 5 + f.day - 1
  let doe : ℤ := yoe * 365 + yoe / 4 - yoe / 100 + doy
  era * 146097 + doe - 719468

/-- Python's `date.weekday()`: Monday = 0, …, Sunday = 6.
Epoch day 0 (1970-01-01) was a Thursday. -/
def weekday (d : ℤ) : ℤ := (d + 3) % 7

/-- `next_monday(d) = d + timedelta(days=(7 - d.weekday()) % 7)`
(source line 107-108), on epoch-day numbers. -/
def next_monday (d : ℤ) : ℤ := d + (7 - weekday d) % 7

/-- `easter_sunday(year)`: the Meeus/Jones/Butcher computus
(source lines 110-126), integer arithmetic only. -/
def easter_sunday (year : ℤ) : Fecha :=
  let a := year % 19
  let b := year / 100
  let c := year % 100
  let d := b / 4
  let e := b % 4
  let f := (b + 8) / 25
  let g := (b - f + 1) / 3
  let h := (19 * a + b - d - g + 15) % 30
  let i := c / 4
  let k := c % 4
  let l := (32 + 2 * e + 2 * i - h - k) % 7
  let m := (a + 11 * h + 22 * l) / 451
  let month := (h + l - 7 * m + 114) / 31
  let day := ((h + l - 7 * m + 114) % 31) + 1
  ⟨year, month, day⟩

/-- `festivos_colombia(year)` (source lines 128-157): the observed Colombian
holidays of a year, as a list of epoch days (the source builds a `set`;
only membership is ever used, so a list is an adequate model). -/
def festivos_colombia (year : ℤ) : List ℤ :=
  let fijos : List ℤ :=
    [toEpochDay ⟨year, 1, 1⟩, toEpochDay ⟨year, 5, 1⟩, toEpochDay ⟨year, 7, 20⟩,
     toEpochDay ⟨year, 8, 7⟩, toEpochDay ⟨year, 12, 8⟩, toEpochDay ⟨year, 12, 25⟩]
  let easter : ℤ := toEpochDay (easter_sunday year)
  let semana_santa : List ℤ := [easter - 3, easter - 2]
  let emiliani : List ℤ :=
    [next_monday (toEpochDay ⟨year, 1, 6⟩), next_monday (toEpochDay ⟨year, 3, 19⟩),
     next_monday (toEpochDay ⟨year, 6, 29⟩), next_monday (toEpochDay ⟨year, 8, 15⟩),
     next_monday (toEpochDay ⟨year, 10, 12⟩), next_monday (toEpochDay ⟨year, 11, 1⟩),
     next_monday (toEpochDay ⟨year, 11, 11⟩)]
  let pascua : List ℤ :=
    [next_monday (easter + 43), next_monday (easter + 60), next_monday (easter + 68)]
  fijos ++ semana_santa ++ emiliani ++ pascua

/-- `construir_calendario_festivos` (source lines 159-164): union of the
holidays of every distinct year appearing in the date column. -/
def construir_calendario_festivos (fechas : List Fecha) : List ℤ :=
  ((fechas.map Fecha.year).dedup).flatMap festivos_colombia

/-- A clock time of day, the `.time()` part of the `datetime` returned by
`convertir_hora` (the date part, 1900-01-01, is never used downstream). -/
structure Hora where
  hour : ℕ
  minute : ℕ
deriving DecidableEq, Repr

/-- Python whitespace stripped by `str.strip()` (ASCII subset; the inputs of
interest contain no exotic whitespace). -/
def esEspacio (c : Char) : Bool :=
  c == ' ' || c == '\t' || c == '\n' || c == '\r' || c == '\x0b' || c == '\x0c'

/-- `str.strip()`. -/
def pyStrip (cs : List Char) : List Char :=
  ((cs.dropWhile esEspacio).reverse.dropWhile esEspacio).reverse

/-- `str.lower()` (ASCII). -/
def lowerChar (c : Char) : Char :=
  if 'A' ≤ c ∧ c ≤ 'Z' then Char.ofNat (c.toNat + 32) else c

/-- `str.upper()` (ASCII). -/
def upperChar (c : Char) : Char :=
  if 'a' ≤ c ∧ c ≤ 'z' then Char.ofNat (c.toNat - 32) else c

def esDigito (c : Char) : Bool := '0' ≤ c && c ≤ '9'

def valorDigito (c : Char) : ℕ := c.toNat - 48

/-- Numeric value of a digit string (`int(s)`). -/
def valor (ds : List Char) : ℕ := ds.foldl (fun n c => 10 * n + valorDigito c) 0

/-- `str.replace(pat, rep)`: leftmost, non-overlapping occurrences.  The fuel
argument (the length of the remaining input) makes the recursion structural;
it never runs out because each step consumes at least one character. -/
def pyReplaceAux (pat rep : List Char) : ℕ → List Char → List Char
  | _, [] => []
  | 0, l => l
  | n + 1, c :: rest =>
    if pat ≠ [] ∧ (c :: rest).take pat.length = pat then
      rep ++ pyReplaceAux pat rep n ((c :: rest).drop pat.length)
    else
      c :: pyReplaceAux pat rep n rest

def pyReplace (pat rep l : List Char) : List Char := pyReplaceAux pat rep l.length l

/-- `re.match(r'^\d{1,2}(am|pm)$', s)`. -/
def coincide_num_ampm (cs : List Char) : Bool :=
  (cs.length == 3 || cs.length == 4) && (cs.take (cs.length - 2)).all esDigito &&
    (cs.drop (cs.length - 2) == ['a', 'm'] || cs.drop (cs.length - 2) == ['p', 'm'])

/-- `re.match(r'^\d{2}(am|pm)$', s)`. -/
def coincide_2d_ampm (cs : List Char) : Bool :=
  cs.length == 4 && (cs.take 2).all esDigito &&
    (cs.drop 2 == ['a', 'm'] || cs.drop 2 == ['p', 'm'])

/-- `re.match(r'^\d{1,2}$', s)`. -/
def coincide_desnudo (cs : List Char) : Bool :=
  (cs.length == 1 || cs.length == 2) && cs.all esDigito

/-- `strptime` directive `%I` (12-hour hour): the regex alternation
`1[0-2]|0[1-9]|[1-9]`, tried in order with full backtracking through the
continuation `k`. -/
def tramoI (cs : List Char) (k : ℕ → List Char → Option Hora) : Option Hora :=
  (match cs with
   | '1' :: c :: rest => if '0' ≤ c && c ≤ '2' then k (10 + valorDigito c) rest else none
   | _ => none) <|>
  (match cs with
   | '0' :: c :: rest => if '1' ≤ c && c ≤ '9' then k (valorDigito c) rest else none
   | _ => none) <|>
  (match cs with
   | c :: rest => if '1' ≤ c && c ≤ '9' then k (valorDigito c) rest else none
   | _ => none)

/-- `strptime` directive `%M` (minute): the regex alternation `[0-5]\d|\d`. -/
def tramoM (cs : List Char) (k : ℕ → List Char → Option Hora) : Option Hora :=
  (match cs with
   | c1 :: c2 :: rest =>
     if ('0' ≤ c1 && c1 ≤ '5') && esDigito c2 then
       k (10 * valorDigito c1 + valorDigito c2) rest
     else none
   | _ => none) <|>
  (match cs with
   | c :: rest => if esDigito c then k (valorDigito c) rest else none
   | _ => none)

/-- `strptime` directive `%H` (24-hour hour): the regex alternation
`2[0-3]|[0-1]\d|\d`. -/
def tramoH (cs : List Char) (k : ℕ → List Char → Option Hora) : Option Hora :=
  (match cs with
   | '2' :: c :: rest => if '0' ≤ c && c ≤ '3' then k (20 + valorDigito c) rest else none
   | _ => none) <|>
  (match cs with
   | c1 :: c2 :: rest =>
     if ('0' ≤ c1 && c1 ≤ '1') && esDigito c2 then
       k (10 * valorDigito c1 + valorDigito c2) rest
     else none
   | _ => none) <|>
  (match cs with
   | c :: rest => if esDigito c then k (valorDigito c) rest else none
   | _ => none)

/-- `datetime.strptime(s, '%I:%M%p')`, restricted to its `.time()`; the whole
input must be consumed, and `%p` adjusts the hour (12 AM → 0, PM → +12). -/
def strptimeIMp (cs : List Char) : Option Hora :=
  tramoI cs fun hh rest =>
    match rest with
    | ':' :: rest2 =>
      tramoM rest2 fun mm rest3 =>
        match rest3 with
        | ['A', 'M'] => some ⟨if hh = 12 then 0 else hh, mm⟩
        | ['P', 'M'] => some ⟨if hh = 12 then 12 else hh + 12, mm⟩
        | _ => none
    | _ => none

/-- `datetime.strptime(s, '%H:%M')`, restricted to its `.time()`. -/
def strptimeHM (cs : List Char) : Option Hora :=
  tramoH cs fun hh rest =>
    match rest with
    | ':' :: rest2 =>
      tramoM rest2 fun mm rest3 => if rest3 = [] then some ⟨hh, mm⟩ else none
    | _ => none

/-- `convertir_hora` (source lines 22-61).  The `pd.isna` guard is omitted:
a `String` argument is never NaN/None.  In the two-digit 24-hour rewrite,
`f'{num}:00'` prints the two original digit characters (`num > 12` has two
digits and no leading zero), modelled as `take 2`. -/
def convertir_hora (hora_str : String) : Except String Hora :=
  let s0 := (pyStrip hora_str.data).map lowerChar
  let s1 := s0.filter (fun c => !(c == ' ' || c == '.'))
  let s2 := pyReplace ['a', '.', 'm'] ['a', 'm'] s1
  let s3 := pyReplace ['p', '.', 'm'] ['p', 'm'] s2
  let s4 :=
    if coincide_num_ampm s3 then
      s3.take (s3.length - 2) ++ [':', '0', '0'] ++ s3.drop (s3.length - 2)
    else s3
  let s5 :=
    if coincide_2d_ampm s4 then
      if valor (s4.take 2) > 12 then s4.take 2 ++ [':', '0', '0'] else s4
    else s4
  let s6 := if coincide_desnudo s5 then s5 ++ [':', '0', '0'] else s5
  let may := s6.map upperChar
  match strptimeIMp may with
  | some t => Except.ok t
  | none =>
    match strptimeHM may with
    | some t => Except.ok t
    | none => Except.error ("Formato de hora inválido: '" ++ hora_str ++ "'")

/-- Day or night period kind (`'diurna'` / `'nocturna'`). -/
inductive Tipo where
  | diurna : Tipo
  | nocturna : Tipo
deriving DecidableEq, Repr

/-- The segment dictionary `{'dur', 'tipo', 'dia', 'start'}` built by
`segmentar_por_franja`: duration in hours, period kind, the calendar date the
segment belongs to (epoch day of its start), and its start instant
(minutes since the epoch). -/
structure Segmento where
  dur : ℚ
  tipo : Tipo
  dia : ℤ
  start : ℤ
deriving DecidableEq, Repr

/-- `combinar_fecha_hora` (source lines 63-64): combine a date and a
time-of-day into an instant (minutes since the epoch). -/
def combinar_fecha_hora (fecha : ℤ) (t : Hora) : ℤ :=
  1440 * fecha + 60 * (t.hour : ℤ) + (t.minute : ℤ)

/-- The midnight-cutting loop of `dividir_por_dia` (source lines 73-81).
Each iteration emits the block `(actual.date(), actual, corte)` where `corte`
is the next midnight, until the remainder fits in one date; the final block
runs to the true end.  The fuel argument is the exact number of midnight
cuts, `fin.date() - actual.date()`, making the `while` loop structural. -/
def dividirAux (fin : ℤ) : ℕ → ℤ → List (ℤ × ℤ × ℤ)
  | 0, actual => [(fin / 1440, actual, fin)]
  | n + 1, actual =>
    if actual / 1440 < fin / 1440 then
      (actual / 1440, actual, 1440 * (actual / 1440 + 1)) ::
        dividirAux fin n (1440 * (actual / 1440 + 1))
    else [(fin / 1440, actual, fin)]

/-- `dividir_por_dia` (source lines 66-82): combine date and times into
instants, add 24 h to the end when `fin ≤ ini` (midnight crossing), then cut
at every midnight boundary. -/
def dividir_por_dia (fecha : ℤ) (ini_t fin_t : Hora) : List (ℤ × ℤ × ℤ) :=
  let ini := combinar_fecha_hora fecha ini_t
  let fin0 := combinar_fecha_hora fecha fin_t
  let fin := if fin0 ≤ ini then fin0 + 1440 else fin0
  dividirAux fin (fin / 1440 - ini / 1440).toNat ini

/-- Hour-of-day of the midpoint `s + (e - s)/2` of two minute instants:
the midpoint is an exact multiple of half a minute, and `.hour` of an
instant `m` (in minutes, possibly fractional) is `(⌊m⌋ % 1440) / 60`. -/
def horaMedia (s e : ℤ) : ℤ := (((s + e) / 2) % 1440) / 60

/-- One segment of `segmentar_por_franja`'s output (source lines 99-103):
duration `(e - s).total_seconds() / 3600`, kind by the midpoint's hour
(`'diurna'` iff it lies in `[6, 21)`), date and start taken from `s`. -/
def segmentoDe (s e : ℤ) : Segmento :=
  { dur := ((e - s : ℤ) : ℚ) / 60
    tipo := if 6 ≤ horaMedia s e ∧ horaMedia s e < 21 then Tipo.diurna else Tipo.nocturna
    dia := s / 1440
    start := s }

/-- `zip(puntos[:-1], puntos[1:])`: one segment per adjacent pair. -/
def enPares : List ℤ → List Segmento
  | a :: b :: rest => segmentoDe a b :: enPares (b :: rest)
  | _ => []

/-- The cut instants of `segmentar_por_franja` (source lines 89-93): 06:00
and 21:00 of the start's date and of the following date. -/
def cortes_franja (ini : ℤ) : List ℤ :=
  let d0 := ini / 1440
  [1440 * d0 + 360, 1440 * d0 + 1260, 1440 * (d0 + 1) + 360, 1440 * (d0 + 1) + 1260]

/-- `puntos` (source lines 95-96): start, end, and every cut instant strictly
between them, sorted. -/
def puntos_franja (ini fin : ℤ) : List ℤ :=
  List.insertionSort (· ≤ ·)
    ([ini, fin] ++ (cortes_franja ini).filter (fun c => decide (ini < c ∧ c < fin)))

/-- `segmentar_por_franja` (source lines 84-104). -/
def segmentar_por_franja (ini fin0 : ℤ) : List Segmento :=
  let fin := if fin0 ≤ ini then fin0 + 1440 else fin0
  enPares (puntos_franja ini fin)

/-- The per-entry composition used by `procesar_excel` (source lines 196-198):
day-block splitting followed by day/night splitting of each block. -/
def segmentos_de_entrada (fecha : ℤ) (ini_t fin_t : Hora) : List Segmento :=
  (dividir_por_dia fecha ini_t fin_t).flatMap fun b => segmentar_por_franja b.2.1 b.2.2

/-- Total duration (hours) of a list of segments. -/
def duracion_total (segs : List Segmento) : ℚ := (segs.map Segmento.dur).sum

/-- `end_instant − start_instant` of an entry in hours, after the
midnight-crossing adjustment (24 h added to the end when `fin ≤ ini`). -/
def duracion_jornada (fecha : ℤ) (ini_t fin_t : Hora) : ℚ :=
  let ini := combinar_fecha_hora fecha ini_t
  let fin0 := combinar_fecha_hora fecha fin_t
  let fin := if fin0 ≤ ini then fin0 + 1440 else fin0
  ((fin - ini : ℤ) : ℚ) / 60

/-- The premium table `PORCENTAJES` (source lines 10-17). -/
def PORCENTAJES : List (String × String) :=
  [("Hora extra diurna", "25%"),
   ("Hora extra nocturna", "75%"),
   ("Hora extra diurna en domingo o festivo", "105%"),
   ("Hora extra nocturna en domingo o festivo", "155%"),
   ("Hora ordinaria en domingo o festivo", "80%"),
   ("Recargo nocturno festivo", "115%")]

/-- `HORAS_JORNADA = 8` (source line 19): the ordinary-hours budget that
applies on Sundays and holidays, per real calendar day. -/
def HORAS_JORNADA : ℚ := 8

/-- One emitted tuple `(nombre, concepto_base, horas)`. -/
abbrev Concepto := String × String × ℚ

/-- `add_concepto` (source lines 186-188): append only when `horas > 0`. -/
def add_concepto (conceptos : List Concepto) (nombre concepto_base : String)
    (horas : ℚ) : List Concepto :=
  if 0 < horas then conceptos ++ [(nombre, concepto_base, horas)] else conceptos

/-- The per-segment classification loop (source lines 203-237), run over the
chronologically sorted segments of one `(employee, declared date)` group.
`presupuesto` models the dict `horas_ordinarias_restantes_por_dia`
(`none` = key absent); `getD HORAS_JORNADA` combines the absent-key
initialisation to `HORAS_JORNADA` with the read that follows it. -/
-- The guarded emissions of the premium branch (source lines 220-230): the
-- ordinary hours, if positive, under the ordinary premium concept of the
-- segment kind, then the extra hours, if positive, under the overtime
-- premium concept of the segment kind.
def emitir_grupo (conceptos : List Concepto) (nombre : String) (tipo : Tipo)
    (ordinaria extra : ℚ) : List Concepto :=
  let conceptos1 :=
    if 0 < ordinaria then
      if tipo = Tipo.diurna then
        add_concepto conceptos nombre "Hora ordinaria en domingo o festivo" ordinaria
      else
        add_concepto conceptos nombre "Recargo nocturno festivo" ordinaria
    else conceptos
  if 0 < extra then
    if tipo = Tipo.diurna then
      add_concepto conceptos1 nombre "Hora extra diurna en domingo o festivo" extra
    else
      add_concepto conceptos1 nombre "Hora extra nocturna en domingo o festivo" extra
  else conceptos1

def clasificarAux (nombre : String) (festivos_set : List ℤ) :
    List Segmento → (ℤ → Option ℚ) → List Concepto → List Concepto
  | [], _, conceptos => conceptos
  | seg :: rest, presupuesto, conceptos =>
    let dur := seg.dur
    let dia_real := seg.dia
    if weekday dia_real = 6 ∨ dia_real ∈ festivos_set then
      let restante := (presupuesto dia_real).getD HORAS_JORNADA
      let ordinaria := min restante dur
      let extra := max 0 (dur - ordinaria)
      clasificarAux nombre festivos_set rest
        (fun x => if x = dia_real then some (max 0 (restante - ordinaria)) else presupuesto x)
        (emitir_grupo conceptos nombre seg.tipo ordinaria extra)
    else
      if seg.tipo = Tipo.diurna then
        clasificarAux nombre festivos_set rest presupuesto
          (add_concepto conceptos nombre "Hora extra diurna" dur)
      else
        clasificarAux nombre festivos_set rest presupuesto
          (add_concepto conceptos nombre "Hora extra nocturna" dur)

/-- The two ordinary (within-budget) premium concepts of the Overtime
Classifier: ordinary-premium-day and ordinary-premium-night. -/
def esConceptoOrdinario (concepto_base : String) : Bool :=
  concepto_base == "Hora ordinaria en domingo o festivo" ||
    concepto_base == "Recargo nocturno festivo"

/-- Total ordinary hours among the emitted concepts. -/
def horas_ordinarias (conceptos : List Concepto) : ℚ :=
  ((conceptos.filter fun c => esConceptoOrdinario c.2.1).map fun c => c.2.2).sum

/-- One input record after column normalisation: `NOMBRE`, `FECHA` (already
parsed by the collaborator / `pd.to_datetime`, so a structured date),
`INICIAL` and `FINAL` as raw strings. -/
structure Fila where
  nombre : String
  fecha : Fecha
  inicial : String
  final : String
deriving DecidableEq, Repr

/-- The result table of `procesar_excel`: its column names and its rows
`(NOMBRE, CONCEPTO, HORAS)`. -/
structure Resultado where
  cols : List String
  filas : List (String × String × ℚ)
deriving DecidableEq, Repr

/-- Key order used to model the sorted iteration of `df.groupby` over
`(NOMBRE, FECHA)` keys (dates compared chronologically, i.e. by epoch day). -/
def claveLe (a b : String × ℤ) : Prop :=
  a.1 < b.1 ∨ (a.1 = b.1 ∧ a.2 ≤ b.2)

instance : DecidableRel claveLe := fun a b => by
  unfold claveLe
  infer_instance

/-- Key order for the final `groupby(['NOMBRE', 'CONCEPTO_BASE'])`. -/
def claveConceptoLe (a b : String × String) : Prop :=
  a.1 < b.1 ∨ (a.1 = b.1 ∧ a.2 ≤ b.2)

instance : DecidableRel claveConceptoLe := fun a b => by
  unfold claveConceptoLe
  infer_instance

/-- Minutes-of-day of a parsed time; `sort_values(by='INI_DT')` compares the
parsed `datetime(1900, 1, 1, h, m)` values, which orders by `(h, m)`. -/
def horaMin (t : Hora) : ℤ := 60 * (t.hour : ℤ) + (t.minute : ℤ)

/-- The summary table (source lines 243-244): group the emitted concepts by
`(NOMBRE, CONCEPTO_BASE)`, sum `HORAS`, and attach the percentage label
`f"{c} ({PORCENTAJES[c]})"`.  The classifier only ever emits the six keys of
`PORCENTAJES`, so the lookup never misses. -/
def resumen_filas (conceptos : List Concepto) : List (String × String × ℚ) :=
  let claves := ((conceptos.map fun c => (c.1, c.2.1)).dedup).insertionSort claveConceptoLe
  claves.map fun k =>
    (k.1, k.2 ++ " (" ++ ((PORCENTAJES.lookup k.2).getD "") ++ ")",
      ((conceptos.filter fun c => decide (c.1 = k.1 ∧ c.2.1 = k.2)).map fun c => c.2.2).sum)

/-- The processing pipeline of `procesar_excel` after both time columns have
been parsed (source lines 183-246): build the holiday calendar, group rows by
`(NOMBRE, FECHA)` (sorted keys, as `groupby` iterates), sort each group by
`INI_DT`, split every entry into day blocks and then day/night segments, sort
the segments chronologically, classify them with a fresh per-group budget
dict, and finally aggregate into the summary table (an empty table with the
three output columns when no concept was emitted). -/
def procesar_validado (rows : List Fila) (ini_dts fin_dts : List Hora) : Resultado :=
  let parsed := rows.zip (ini_dts.zip fin_dts)
  let festivos_set := construir_calendario_festivos (rows.map Fila.fecha)
  let claves :=
    ((parsed.map fun p => (p.1.nombre, toEpochDay p.1.fecha)).dedup).insertionSort claveLe
  let conceptos := claves.foldl (fun conceptos k =>
    let grupo := parsed.filter fun p =>
      decide (p.1.nombre = k.1 ∧ toEpochDay p.1.fecha = k.2)
    let grupo := grupo.insertionSort (fun a b => horaMin a.2.1 ≤ horaMin b.2.1)
    let segmentos_turno := grupo.flatMap fun p =>
      (dividir_por_dia k.2 p.2.1 p.2.2).flatMap fun b => segmentar_por_franja b.2.1 b.2.2
    let segmentos_turno := segmentos_turno.insertionSort (fun a b => a.start ≤ b.start)
    clasificarAux k.1 festivos_set segmentos_turno (fun _ => none) conceptos) []
  if conceptos = [] then ⟨["NOMBRE", "CONCEPTO", "HORAS"], []⟩
  else ⟨["NOMBRE", "CONCEPTO", "HORAS"], resumen_filas conceptos⟩

/-- `procesar_excel` (source lines 167-246).  The date column is already
structured (`Fecha`), so the `pd.to_datetime` validation step cannot fire;
the two `apply(convertir_hora)` calls raise the first conversion error of the
`INICIAL` column, then of the `FINAL` column. -/
def procesar_excel (rows : List Fila) : Except String Resultado :=
  match rows.mapM (fun r => convertir_hora r.inicial),
      rows.mapM (fun r => convertir_hora r.final) with
  | Except.ok ini_dts, Except.ok fin_dts =>
    Except.ok (procesar_validado rows ini_dts fin_dts)
  | Except.error e, _ => Except.error e
  | _, Except.error e => Except.error e

/-- One row of the invalid-value report built by `encontrar_invalidos`
(source lines 249-260): the dataframe index, column label, offending raw
value and the error message. -/
structure Invalido where
  fila_df : ℕ
  columna : String
  valor : String
  error : String
deriving DecidableEq, Repr

/-- `encontrar_invalidos` (source lines 249-260): collect every row of the
series whose value `convertir_hora` rejects, with its index and raw value. -/
def encontrar_invalidos (serie : List (ℕ × String)) (etiqueta_col : String) : List Invalido :=
  serie.filterMap fun p =>
    match convertir_hora p.2 with
    | Except.ok _ => none
    | Except.error e => some ⟨p.1, etiqueta_col, p.2, e⟩

/-- The validation gate of the caller (source lines 289-300): run
`encontrar_invalidos` on both time columns, and only call `procesar_excel`
when no invalid value was found; otherwise stop and report the whole list. -/
def flujo_validacion (rows : List Fila) : Except (List Invalido) (Except String Resultado) :=
  let inv_ini := encontrar_invalidos ((rows.map Fila.inicial).enum) "INICIAL"
  let inv_fin := encontrar_invalidos ((rows.map Fila.final).enum) "FINAL"
  let inv_total := inv_ini ++ inv_fin
  if inv_total = [] then Except.ok (procesar_excel rows) else Except.error inv_total

/-- A raw time value the Time Parser rejects. -/
def esInvalida (v : String) : Prop := ∃ e, convertir_hora v = Except.error e
/-- C6: the Easter computus returns 31 March 2024 for year 2024 and
20 April 2025 for year 2025. -/
theorem C6_easter_sunday_2024_2025 :
    easter_sunday 2024 = ⟨2024, 3, 31⟩ ∧ easter_sunday 2025 = ⟨2025, 4, 20⟩ := by
  constructor <;> decide

/-- C7: the Monday-shift rule is the identity on Mondays, and for any other
weekday it returns the strictly later following Monday (the least strictly
later date whose weekday is Monday). -/
theorem C7_next_monday_identity_on_monday (d : ℤ) :
    (weekday d = 0 → next_monday d = d) ∧
    (weekday d ≠ 0 →
      d < next_monday d ∧ weekday (next_monday d) = 0 ∧
      ∀ m : ℤ, d < m → m < next_monday d → weekday m ≠ 0) := by
  unfold next_monday weekday
  constructor
  · intro h; omega
  · intro h
    refine ⟨by omega, by omega, ?_⟩
    intro m h1 h2
    omega

theorem C7_witness :
    next_monday 4 = 4 ∧ 5 < next_monday 5 := by
  refine ⟨(C7_next_monday_identity_on_monday 4).1 (by decide), ?_⟩
  exact ((C7_next_monday_identity_on_monday 5).2 (by decide)).1

/-- C2 (code bug): contrary to the spec (and to the function's own
docstring, "Corrige casos como '16AM' o '16 PM' (lo interpreta en 24h)"),
`convertir_hora "16pm"` raises `ValueError`: the no-minutes rule
`^\d{1,2}(am|pm)$` fires first and rewrites `"16pm"` to `"16:00pm"`, which the
24-hour fallback rule `^\d{2}(am|pm)$` no longer matches and which neither
`strptime` format accepts. -/
theorem C2_dieciseis_pm_falla :
    convertir_hora "16pm" = Except.error "Formato de hora inválido: '16pm'" := by
  rfl

/-- C9: the parser identifies equivalent spellings of the same clock time:
`"8am"`, `"08:00am"` and `"8:00AM"` all parse to 08:00. -/
theorem C9_convertir_hora_formas_equivalentes :
    convertir_hora "8am" = Except.ok ⟨8, 0⟩ ∧
    convertir_hora "08:00am" = Except.ok ⟨8, 0⟩ ∧
    convertir_hora "8:00AM" = Except.ok ⟨8, 0⟩ := by
  refine ⟨?_, ?_, ?_⟩ <;> rfl

/-- C3 (code bug): an entry whose end time is exactly midnight violates
duration conservation.  For the entry (2024-03-02, start "10pm", end "12am"),
`end_instant − start_instant` is 2 hours, but the composition of
`dividir_por_dia` and `segmentar_por_franja` emits segments totalling
26 hours: the zero-width final day block `(2024-03-03, 00:00, 00:00)` is
treated by `segmentar_por_franja` as a midnight-crossing interval
(`fin_dt <= ini_dt` so it adds 24 h) and produces phantom segments covering
the whole of 2024-03-03. -/
theorem C3_medianoche_duplica_duracion :
    convertir_hora "10pm" = Except.ok ⟨22, 0⟩ ∧
    convertir_hora "12am" = Except.ok ⟨0, 0⟩ ∧
    duracion_total (segmentos_de_entrada (toEpochDay ⟨2024, 3, 2⟩) ⟨22, 0⟩ ⟨0, 0⟩) = 26 ∧
    duracion_jornada (toEpochDay ⟨2024, 3, 2⟩) ⟨22, 0⟩ ⟨0, 0⟩ = 2 := by
  refine ⟨rfl, rfl, ?_, ?_⟩ <;>
    norm_num [segmentos_de_entrada, dividir_por_dia, dividirAux, combinar_fecha_hora,
      segmentar_por_franja, puntos_franja, cortes_franja, enPares, segmentoDe, horaMedia,
      duracion_total, duracion_jornada, toEpochDay, List.insertionSort, List.orderedInsert]

lemma enPares_adyacentes :
    ∀ l : List ℤ, l.Sorted (· ≤ ·) → ∀ s ∈ enPares l,
      ∃ a b : ℤ, s = segmentoDe a b ∧ a ∈ l ∧ b ∈ l ∧ a ≤ b ∧
        ∀ x ∈ l, ¬(a < x ∧ x < b) := by
  intro l
  induction l with
  | nil => intro _ s hs; simp [enPares] at hs
  | cons a t ih =>
    cases t with
    | nil => intro _ s hs; simp [enPares] at hs
    | cons b rest =>
      intro hsort s hs
      rw [List.sorted_cons] at hsort
      simp only [enPares, List.mem_cons] at hs
      rcases hs with rfl | hs
      · refine ⟨a, b, rfl, by simp, by simp, hsort.1 b (by simp), ?_⟩
        intro x hx
        rcases List.mem_cons.mp hx with rfl | hx
        · exact fun h => absurd h.1 (lt_irrefl x)
        · have hbx : b ≤ x := by
            rcases List.mem_cons.mp hx with rfl | hx' 
            · exact le_refl x
            · exact List.rel_of_sorted_cons hsort.2 x hx' 
          exact fun h => absurd h.2 (not_lt.mpr hbx)
      · obtain ⟨a', b', rfl, ha', hb', hab, hx⟩ := ih hsort.2 s hs
        refine ⟨a', b', rfl, List.mem_cons_of_mem _ ha', List.mem_cons_of_mem _ hb', hab, ?_⟩
        intro x hxm
        rcases List.mem_cons.mp hxm with rfl | hxm
        · have hxa : x ≤ a' := hsort.1 a' ha' 
          exact fun hc => absurd hc.1 (not_lt.mpr hxa)
        · exact hx x hxm

lemma puntos_franja_cota {ini fin : ℤ} (a : ℤ) (ha : a ∈ puntos_franja ini fin) :
    (a = ini ∨ a = fin) ∨ (ini < a ∧ a < fin) := by
  rw [puntos_franja, List.mem_insertionSort, List.mem_append] at ha
  rcases ha with ha | ha
  · left; simpa using ha
  · right
    rw [List.mem_filter] at ha
    simpa using ha.2

lemma corte_en_rango {ini fin x : ℤ} (h2 : fin ≤ ini + 1440)
    (hx1 : ini < x) (hx2 : x < fin) (hb : x % 1440 = 360 ∨ x % 1440 = 1260) :
    x ∈ cortes_franja ini := by
  have hd : x = 1440 * (ini / 1440) + 360 ∨ x = 1440 * (ini / 1440) + 1260 ∨
      x = 1440 * (ini / 1440 + 1) + 360 ∨ x = 1440 * (ini / 1440 + 1) + 1260 := by
    omega
  unfold cortes_franja
  rcases hd with h | h | h | h <;> simp [h]

lemma cruce_a_diurno {u v : ℤ} (huv : u < v)
    (hu : ¬(360 ≤ u % 1440 ∧ u % 1440 < 1260))
    (hv : 360 ≤ v % 1440 ∧ v % 1440 < 1260) :
    ∃ x : ℤ, u < x ∧ x ≤ v ∧ x % 1440 = 360 := by
  rcases lt_or_le (u % 1440) 360 with h | h
  · exact ⟨u - u % 1440 + 360, by omega, by omega, by omega⟩
  · exact ⟨u - u % 1440 + 1800, by omega, by omega, by omega⟩

lemma cruce_a_nocturno {u v : ℤ} (huv : u < v)
    (hu : 360 ≤ u % 1440 ∧ u % 1440 < 1260)
    (hv : ¬(360 ≤ v % 1440 ∧ v % 1440 < 1260)) :
    ∃ x : ℤ, u < x ∧ x ≤ v ∧ x % 1440 = 1260 :=
  ⟨u - u % 1440 + 1260, by omega, by omega, by omega⟩

lemma sin_frontera_clasifica {a b : ℤ}
    (hnf : ∀ x : ℤ, a < x → x < b → ¬(x % 1440 = 360 ∨ x % 1440 = 1260))
    {t : ℤ} (ht1 : a ≤ t) (ht2 : t < b) :
    ((6 ≤ horaMedia a b ∧ horaMedia a b < 21) → 360 ≤ t % 1440 ∧ t % 1440 < 1260) ∧
    (¬(6 ≤ horaMedia a b ∧ horaMedia a b < 21) → ¬(360 < t % 1440 ∧ t % 1440 < 1260)) := by
  have hab' : a < b := lt_of_le_of_lt ht1 ht2
  set μ := (a + b) / 2 with hμ
  have hμ1 : a ≤ μ := by omega
  have hμ2 : μ < b := by omega
  have hmid : (6 ≤ horaMedia a b ∧ horaMedia a b < 21) ↔
      (360 ≤ μ % 1440 ∧ μ % 1440 < 1260) := by
    unfold horaMedia
    omega
  constructor
  · intro hd
    have hμd := hmid.mp hd
    by_contra htc
    rcases lt_trichotomy t μ with hlt | heq | hgt
    · obtain ⟨x, hx1, hx2, hx3⟩ := cruce_a_diurno hlt htc hμd
      exact hnf x (by omega) (by omega) (Or.inl hx3)
    · omega
    · obtain ⟨x, hx1, hx2, hx3⟩ := cruce_a_nocturno hgt hμd htc
      exact hnf x (by omega) (by omega) (Or.inr hx3)
  · intro hn hin
    have hμn : ¬(360 ≤ μ % 1440 ∧ μ % 1440 < 1260) := fun hc => hn (hmid.mpr hc)
    have htd : 360 ≤ t % 1440 ∧ t % 1440 < 1260 := ⟨le_of_lt hin.1, hin.2⟩
    rcases lt_trichotomy t μ with hlt | heq | hgt
    · obtain ⟨x, hx1, hx2, hx3⟩ := cruce_a_nocturno hlt htd hμn
      exact hnf x (by omega) (by omega) (Or.inr hx3)
    · omega
    · obtain ⟨x, hx1, hx2, hx3⟩ := cruce_a_diurno hgt hμn htd
      exact hnf x (by omega) (by omega) (Or.inl hx3)

/-- C4: no segment produced by `segmentar_por_franja` straddles a 06:00 or
21:00 day/night boundary, provided the interval spans at most 24 hours (which
every day block produced by `dividir_por_dia` satisfies): no boundary instant
lies strictly inside a segment, every instant of a day-classified segment has
its minute-of-day in `[360, 1260)` (hour-of-day in `[6, 21)`), and no instant
of a night-classified segment lies strictly inside `(06:00, 21:00)`. -/
theorem C4_segmento_no_cruza_frontera (ini fin0 : ℤ)
    (h1 : ini - 1440 < fin0) (h2 : fin0 ≤ ini + 1440) :
    ∀ s ∈ segmentar_por_franja ini fin0, ∀ t : ℤ,
      s.start ≤ t → (t : ℚ) < (s.start : ℚ) + 60 * s.dur →
      (∀ x : ℤ, s.start < x → (x : ℚ) < (s.start : ℚ) + 60 * s.dur →
        ¬(x % 1440 = 360 ∨ x % 1440 = 1260)) ∧
      (s.tipo = Tipo.diurna → 360 ≤ t % 1440 ∧ t % 1440 < 1260) ∧
      (s.tipo = Tipo.nocturna → ¬(360 < t % 1440 ∧ t % 1440 < 1260)) := by
  intro s hs t ht1 ht2
  rw [segmentar_por_franja] at hs
  set fin := if fin0 ≤ ini then fin0 + 1440 else fin0 with hfin
  have hif : ini < fin ∧ fin ≤ ini + 1440 := by rw [hfin]; split_ifs <;> omega
  have hsorted : (puntos_franja ini fin).Sorted (· ≤ ·) := by
    rw [puntos_franja]; exact List.sorted_insertionSort _ _
  obtain ⟨a, b, hsab, ha, hb, hab, hexcl⟩ := enPares_adyacentes _ hsorted s hs
  have hba := puntos_franja_cota a ha
  have hbb := puntos_franja_cota b hb
  have hba' : ini ≤ a ∧ a ≤ fin := by rcases hba with (h | h) | h <;> omega
  have hbb' : ini ≤ b ∧ b ≤ fin := by rcases hbb with (h | h) | h <;> omega
  have hstart : s.start = a := by rw [hsab]; rfl
  have hdur : s.dur = ((b - a : ℤ) : ℚ) / 60 := by rw [hsab]; rfl
  have hcastb : (s.start : ℚ) + 60 * s.dur = (b : ℚ) := by
    rw [hstart, hdur]; push_cast; ring
  have htb : t < b := by
    have : (t : ℚ) < (b : ℚ) := by rw [← hcastb]; exact ht2
    exact_mod_cast this
  have hta : a ≤ t := hstart ▸ ht1
  have hnf : ∀ x : ℤ, a < x → x < b → ¬(x % 1440 = 360 ∨ x % 1440 = 1260) := by
    intro x hx1 hx2 hxb
    have hxc : x ∈ cortes_franja ini :=
      corte_en_rango hif.2 (by omega) (by omega) hxb
    have hxp : x ∈ puntos_franja ini fin := by
      rw [puntos_franja, List.mem_insertionSort]
      refine List.mem_append.mpr (Or.inr ?_)
      rw [List.mem_filter]
      refine ⟨hxc, by simp; omega⟩
    exact hexcl x hxp ⟨hx1, hx2⟩
  have hcl := sin_frontera_clasifica hnf hta htb
  refine ⟨?_, ?_, ?_⟩
  · intro x hx1 hx2
    have hxb : x < b := by
      have : (x : ℚ) < (b : ℚ) := by rw [← hcastb]; exact hx2
      exact_mod_cast this
    exact hnf x (hstart ▸ hx1) hxb
  · intro hd
    apply hcl.1
    by_contra hmc
    rw [hsab] at hd
    simp [segmentoDe, hmc] at hd
  · intro hn
    apply hcl.2
    intro hmc
    rw [hsab] at hn
    simp [segmentoDe, hmc] at hn

theorem C4_witness :
    ¬(360 < (100 : ℤ) % 1440 ∧ (100 : ℤ) % 1440 < 1260) := by
  have hmem : (⟨6, Tipo.nocturna, 0, 0⟩ : Segmento) ∈ segmentar_por_franja 0 360 := by
    norm_num [segmentar_por_franja, puntos_franja, cortes_franja, enPares, segmentoDe,
      horaMedia, List.insertionSort, List.orderedInsert]
  have h := C4_segmento_no_cruza_frontera 0 360 (by norm_num) (by norm_num) ⟨6, Tipo.nocturna, 0, 0⟩ hmem 100
    (by norm_num) (by norm_num)
  exact h.2.2 rfl

lemma duracion_total_nonneg (segs : List Segmento) (h : ∀ s ∈ segs, 0 ≤ s.dur) :
    0 ≤ duracion_total segs :=
  List.sum_nonneg (by intro x hx; obtain ⟨s, hs, rfl⟩ := List.mem_map.mp hx; exact h s hs)

lemma horas_ordinarias_append (l : List Concepto) (c : Concepto) :
    horas_ordinarias (l ++ [c]) =
      horas_ordinarias l + (if esConceptoOrdinario c.2.1 then c.2.2 else 0) := by
  unfold horas_ordinarias
  rw [List.filter_append]
  split_ifs with h <;> simp [h]

lemma esConceptoOrdinario_valores :
    esConceptoOrdinario "Hora ordinaria en domingo o festivo" = true ∧
    esConceptoOrdinario "Recargo nocturno festivo" = true ∧
    esConceptoOrdinario "Hora extra diurna en domingo o festivo" = false ∧
    esConceptoOrdinario "Hora extra nocturna en domingo o festivo" = false ∧
    esConceptoOrdinario "Hora extra diurna" = false ∧
    esConceptoOrdinario "Hora extra nocturna" = false :=
  ⟨rfl, rfl, rfl, rfl, rfl, rfl⟩

lemma horas_ordinarias_nil : horas_ordinarias [] = 0 := rfl

lemma horas_ordinarias_cons (c : Concepto) (l : List Concepto) :
    horas_ordinarias (c :: l) =
      (if esConceptoOrdinario c.2.1 then c.2.2 else 0) + horas_ordinarias l := by
  unfold horas_ordinarias
  rw [List.filter_cons]
  split_ifs <;> simp

lemma horas_ordinarias_append_gen (l1 l2 : List Concepto) :
    horas_ordinarias (l1 ++ l2) = horas_ordinarias l1 + horas_ordinarias l2 := by
  unfold horas_ordinarias
  simp [List.filter_append]

lemma min_presupuesto (r u S : ℚ) (hu : 0 ≤ u) (hS : 0 ≤ S) :
    min r u + min (max 0 (r - min r u)) S = min r (u + S) := by
  rcases le_total r u with h | h
  · rw [min_eq_left h, sub_self, max_self, min_eq_left hS, min_eq_left (by linarith), add_zero]
  · rw [min_eq_right h, max_eq_right (by linarith : (0:ℚ) ≤ r - u)]
    rcases le_total (r - u) S with h2 | h2
    · rw [min_eq_left h2, min_eq_left (by linarith : r ≤ u + S)]; ring
    · rw [min_eq_right h2, min_eq_right (by linarith : u + S ≤ r)]

lemma horas_ordinarias_emitir (conceptos : List Concepto) (nombre : String) (tipo : Tipo)
    (ordinaria extra : ℚ) (h : 0 ≤ ordinaria) :
    horas_ordinarias (emitir_grupo conceptos nombre tipo ordinaria extra) =
      horas_ordinarias conceptos + ordinaria := by
  unfold emitir_grupo
  by_cases h1 : 0 < ordinaria <;> by_cases h2 : 0 < extra <;> cases tipo
  all_goals
    try simp only [h1, h2, if_true, if_false, ite_true, ite_false, add_concepto,
      horas_ordinarias_append, esConceptoOrdinario_valores.1,
      esConceptoOrdinario_valores.2.1, esConceptoOrdinario_valores.2.2.1,
      esConceptoOrdinario_valores.2.2.2.1]
  all_goals
    try simp [horas_ordinarias_append, horas_ordinarias_append_gen, horas_ordinarias_cons,
      horas_ordinarias_nil, esConceptoOrdinario_valores.1,
      esConceptoOrdinario_valores.2.1, esConceptoOrdinario_valores.2.2.1,
      esConceptoOrdinario_valores.2.2.2.1]
  all_goals try rw [le_antisymm (not_lt.mp h1) h]

lemma clasificarAux_ordinarias (nombre : String) (festivos_set : List ℤ) (d : ℤ)
    (hprem : weekday d = 6 ∨ d ∈ festivos_set) :
    ∀ (segs : List Segmento) (presupuesto : ℤ → Option ℚ) (conceptos : List Concepto),
      (∀ s ∈ segs, s.dia = d) → (∀ s ∈ segs, 0 ≤ s.dur) →
      0 ≤ (presupuesto d).getD HORAS_JORNADA →
      horas_ordinarias (clasificarAux nombre festivos_set segs presupuesto conceptos) =
        horas_ordinarias conceptos +
          min ((presupuesto d).getD HORAS_JORNADA) (duracion_total segs) := by
  intro segs
  induction segs with
  | nil =>
    intro presupuesto conceptos _ _ hr
    simp [clasificarAux, duracion_total, min_eq_right hr]
  | cons seg rest ih =>
    intro presupuesto conceptos hdia hdur hr
    have hd : seg.dia = d := hdia seg (List.mem_cons_self _ _)
    have hu : 0 ≤ seg.dur := hdur seg (List.mem_cons_self _ _)
    have hS : 0 ≤ duracion_total rest :=
      duracion_total_nonneg _ (fun s hs => hdur s (List.mem_cons_of_mem _ hs))
    have hdc : duracion_total (seg :: rest) = seg.dur + duracion_total rest := by
      simp [duracion_total]
    simp only [clasificarAux, hd, if_pos hprem]
    rw [ih _ _ (fun s hs => hdia s (List.mem_cons_of_mem _ hs))
        (fun s hs => hdur s (List.mem_cons_of_mem _ hs)) (by simp)]
    simp only [if_pos rfl, Option.getD_some]
    generalize hrg : (presupuesto d).getD HORAS_JORNADA = r at hr ⊢
    rw [horas_ordinarias_emitir _ _ _ _ _ (le_min hr hu)]
    rw [hdc, ← min_presupuesto r seg.dur (duracion_total rest) hu hS]
    simp
    ring

/-- C1: for a premium-day (employee, date) group (all segments carry the same
real calendar date `d`, which is a Sunday or holiday), the ordinary hours
emitted by the classifier (concepts ordinary-premium-day and
ordinary-premium-night) total exactly `min HORAS_JORNADA (total duration)`
and never exceed the 8-hour budget; the budget is consumed in the order of
the segment list and each run starts a fresh budget dict, so it is never
shared across groups. -/
theorem C1_presupuesto_ordinario (nombre : String) (festivos_set : List ℤ) (d : ℤ)
    (segs : List Segmento)
    (hprem : weekday d = 6 ∨ d ∈ festivos_set)
    (hdia : ∀ s ∈ segs, s.dia = d) (hdur : ∀ s ∈ segs, 0 ≤ s.dur) :
    horas_ordinarias (clasificarAux nombre festivos_set segs (fun _ => none) []) =
      min HORAS_JORNADA (duracion_total segs) ∧
    horas_ordinarias (clasificarAux nombre festivos_set segs (fun _ => none) []) ≤
      HORAS_JORNADA := by
  have h := clasificarAux_ordinarias nombre festivos_set d hprem segs (fun _ => none) []
    hdia hdur (by norm_num [HORAS_JORNADA])
  simp only [Option.getD_none, horas_ordinarias_nil, zero_add] at h
  exact ⟨h, h ▸ min_le_left _ _⟩

theorem C1_witness :
    horas_ordinarias
        (clasificarAux "Eva" [] [⟨10, Tipo.diurna, 3, 0⟩] (fun _ => none) []) =
      min HORAS_JORNADA (duracion_total [⟨10, Tipo.diurna, 3, 0⟩]) ∧
    horas_ordinarias
        (clasificarAux "Eva" [] [⟨10, Tipo.diurna, 3, 0⟩] (fun _ => none) []) ≤
      HORAS_JORNADA := by
  refine C1_presupuesto_ordinario "Eva" [] 3 [⟨10, Tipo.diurna, 3, 0⟩] (Or.inl (by decide))
    ?_ ?_
  · intro s hs
    simp at hs
    rw [hs]
  · intro s hs
    simp at hs
    rw [hs]
    norm_num

set_option maxHeartbeats 1000000 in
/-- C5: the Eva scenario.  The entry (employee "Eva", date 2024-03-02,
start "10pm", end "6am") produces exactly two emissions: 2 hours of
overtime-night ("Hora extra nocturna") for the non-premium Saturday
2024-03-02 and 6 hours of ordinary-premium-night ("Recargo nocturno
festivo") for the Sunday 2024-03-03, because each segment is classified by
its own calendar date: the two night segments carry the dates 2024-03-02 and
2024-03-03 respectively. -/
theorem C5_eva_cruce_medianoche :
    procesar_excel [⟨"Eva", ⟨2024, 3, 2⟩, "10pm", "6am"⟩] =
      Except.ok ⟨["NOMBRE", "CONCEPTO", "HORAS"],
        [("Eva", "Hora extra nocturna (75%)", 2),
         ("Eva", "Recargo nocturno festivo (115%)", 6)]⟩ ∧
    convertir_hora "10pm" = Except.ok ⟨22, 0⟩ ∧
    convertir_hora "6am" = Except.ok ⟨6, 0⟩ ∧
    (segmentos_de_entrada (toEpochDay ⟨2024, 3, 2⟩) ⟨22, 0⟩ ⟨6, 0⟩).map Segmento.dia =
      [toEpochDay ⟨2024, 3, 2⟩, toEpochDay ⟨2024, 3, 3⟩] ∧
    (segmentos_de_entrada (toEpochDay ⟨2024, 3, 2⟩) ⟨22, 0⟩ ⟨6, 0⟩).map Segmento.dur =
      [2, 6] ∧
    (segmentos_de_entrada (toEpochDay ⟨2024, 3, 2⟩) ⟨22, 0⟩ ⟨6, 0⟩).map Segmento.tipo =
      [Tipo.nocturna, Tipo.nocturna] ∧
    weekday (toEpochDay ⟨2024, 3, 2⟩) = 5 ∧
    toEpochDay ⟨2024, 3, 2⟩ ∉ festivos_colombia 2024 ∧
    weekday (toEpochDay ⟨2024, 3, 3⟩) = 6 := by
  have h1 : ([⟨"Eva", ⟨2024, 3, 2⟩, "10pm", "6am"⟩] : List Fila).mapM
      (fun r => convertir_hora r.inicial) = Except.ok [⟨22, 0⟩] := rfl
  have h2 : ([⟨"Eva", ⟨2024, 3, 2⟩, "10pm", "6am"⟩] : List Fila).mapM
      (fun r => convertir_hora r.final) = Except.ok [⟨6, 0⟩] := rfl
  refine ⟨?_, rfl, rfl, ?_, ?_, ?_, by decide, by decide, by decide⟩
  · unfold procesar_excel
    rw [h1, h2]
    norm_num [procesar_validado, resumen_filas, construir_calendario_festivos,
      festivos_colombia, next_monday, weekday, easter_sunday, toEpochDay, claveLe,
      claveConceptoLe, horaMin, clasificarAux, emitir_grupo, add_concepto, HORAS_JORNADA,
      dividir_por_dia, dividirAux, combinar_fecha_hora,
      segmentar_por_franja, puntos_franja, cortes_franja, enPares, segmentoDe, horaMedia,
      List.insertionSort, List.orderedInsert, PORCENTAJES]
    simp [List.lookup]
    split_ifs with hord
    · simp
    · exact absurd (by decide) hord
  all_goals
    norm_num [segmentos_de_entrada, dividir_por_dia, dividirAux, combinar_fecha_hora,
      segmentar_por_franja, puntos_franja, cortes_franja, enPares, segmentoDe, horaMedia,
      toEpochDay, List.insertionSort, List.orderedInsert]

lemma add_concepto_pos (l : List Concepto) (nombre cb : String) (h : ℚ)
    (hl : ∀ c ∈ l, 0 < c.2.2) : ∀ c ∈ add_concepto l nombre cb h, 0 < c.2.2 := by
  intro c hc
  unfold add_concepto at hc
  split_ifs at hc with hp
  · rcases List.mem_append.mp hc with h1 | h1
    · exact hl c h1
    · simp only [List.mem_singleton] at h1
      rw [h1]
      exact hp
  · exact hl c hc

lemma emitir_grupo_pos (conceptos : List Concepto) (nombre : String) (tipo : Tipo)
    (o e : ℚ) (hl : ∀ c ∈ conceptos, 0 < c.2.2) :
    ∀ c ∈ emitir_grupo conceptos nombre tipo o e, 0 < c.2.2 := by
  intro c hc
  simp only [emitir_grupo] at hc
  split_ifs at hc <;>
    first
    | exact add_concepto_pos _ _ _ _ (add_concepto_pos _ _ _ _ hl) c hc
    | exact add_concepto_pos _ _ _ _ hl c hc
    | exact hl c hc

lemma clasificarAux_pos (nombre : String) (festivos_set : List ℤ) :
    ∀ (segs : List Segmento) (presupuesto : ℤ → Option ℚ) (conceptos : List Concepto),
      (∀ c ∈ conceptos, 0 < c.2.2) →
      ∀ c ∈ clasificarAux nombre festivos_set segs presupuesto conceptos, 0 < c.2.2 := by
  intro segs
  induction segs with
  | nil =>
    intro p cs h c hc
    simp only [clasificarAux] at hc
    exact h c hc
  | cons seg rest ih =>
    intro p cs h c hc
    simp only [clasificarAux] at hc
    split_ifs at hc with h1 h2
    · exact ih _ _ (emitir_grupo_pos _ _ _ _ _ h) c hc
    · exact ih _ _ (add_concepto_pos _ _ _ _ h) c hc
    · exact ih _ _ (add_concepto_pos _ _ _ _ h) c hc

lemma foldl_pos {α : Type} (paso : List Concepto → α → List Concepto)
    (hpaso : ∀ cs a, (∀ c ∈ cs, 0 < c.2.2) → ∀ c ∈ paso cs a, 0 < c.2.2) :
    ∀ (l : List α) (cs : List Concepto), (∀ c ∈ cs, 0 < c.2.2) →
      ∀ c ∈ l.foldl paso cs, 0 < c.2.2 := by
  intro l
  induction l with
  | nil => intro cs h c hc; simpa using h c hc
  | cons a l ih =>
    intro cs h c hc
    rw [List.foldl_cons] at hc
    exact ih _ (hpaso cs a h) c hc

lemma resumen_filas_pos (conceptos : List Concepto) (h : ∀ c ∈ conceptos, 0 < c.2.2) :
    ∀ fila ∈ resumen_filas conceptos, 0 < fila.2.2 := by
  intro fila hf
  simp only [resumen_filas, List.mem_map] at hf
  obtain ⟨k, hk, rfl⟩ := hf
  rw [List.mem_insertionSort, List.mem_dedup] at hk
  obtain ⟨c0, hc0, hkeq⟩ := List.mem_map.mp hk
  apply List.sum_pos
  · intro x hx
    obtain ⟨c, hc, rfl⟩ := List.mem_map.mp hx
    exact h c (List.mem_filter.mp hc).1
  · intro hemp
    have hmem : c0 ∈ conceptos.filter fun c => decide (c.1 = k.1 ∧ c.2.1 = k.2) := by
      rw [List.mem_filter]
      refine ⟨hc0, ?_⟩
      have h1 : c0.1 = k.1 := by rw [← hkeq]
      have h2 : c0.2.1 = k.2 := by rw [← hkeq]
      simp [h1, h2]
    have h2 := List.map_eq_nil.mp hemp
    rw [h2] at hmem
    exact absurd hmem (List.not_mem_nil c0)

lemma procesar_validado_props (rows : List Fila) (ini_dts fin_dts : List Hora) :
    (procesar_validado rows ini_dts fin_dts).cols = ["NOMBRE", "CONCEPTO", "HORAS"] ∧
    ∀ fila ∈ (procesar_validado rows ini_dts fin_dts).filas, 0 < fila.2.2 := by
  simp only [procesar_validado]
  constructor
  · split_ifs <;> rfl
  · split_ifs with hemp
    · intro fila hf
      simp at hf
    · intro fila hf
      refine resumen_filas_pos _ ?_ fila hf
      exact foldl_pos _ (fun cs k hcs => clasificarAux_pos _ _ _ _ _ hcs) _ _ (by simp)

/-- C10: when classification emits no concept (e.g. the empty input), the
pipeline returns an empty table with exactly the three output columns
(NOMBRE, CONCEPTO, HORAS) instead of raising, and every row of any result
has strictly positive hours. -/
theorem C10_tabla_vacia_y_horas_positivas :
    procesar_excel [] = Except.ok ⟨["NOMBRE", "CONCEPTO", "HORAS"], []⟩ ∧
    ∀ (rows : List Fila) (res : Resultado), procesar_excel rows = Except.ok res →
      res.cols = ["NOMBRE", "CONCEPTO", "HORAS"] ∧ ∀ fila ∈ res.filas, 0 < fila.2.2 := by
  constructor
  · rfl
  · intro rows res h
    unfold procesar_excel at h
    cases h1 : rows.mapM (fun r => convertir_hora r.inicial) with
    | error e => rw [h1] at h; simp at h
    | ok ini_dts =>
      cases h2 : rows.mapM (fun r => convertir_hora r.final) with
      | error e => rw [h1, h2] at h; simp at h
      | ok fin_dts =>
        rw [h1, h2] at h
        simp only [Except.ok.injEq] at h
        rw [← h]
        exact procesar_validado_props rows ini_dts fin_dts

theorem C10_witness :
    (⟨["NOMBRE", "CONCEPTO", "HORAS"], []⟩ : Resultado).cols =
        ["NOMBRE", "CONCEPTO", "HORAS"] ∧
    ∀ fila ∈ (⟨["NOMBRE", "CONCEPTO", "HORAS"], []⟩ : Resultado).filas, 0 < fila.2.2 :=
  C10_tabla_vacia_y_horas_positivas.2 [] ⟨["NOMBRE", "CONCEPTO", "HORAS"], []⟩ rfl

lemma mem_enum_de_get (l : List String) (i : ℕ) (h : i < l.length) :
    (i, l.get ⟨i, h⟩) ∈ l.enum := by
  rw [List.mk_mem_enum_iff_getElem?]
  simp [List.getElem?_eq_getElem h]

lemma encontrar_invalidos_mem (serie : List (ℕ × String)) (etiqueta : String)
    (i : ℕ) (v : String) (e : String) (hm : (i, v) ∈ serie)
    (he : convertir_hora v = Except.error e) :
    (⟨i, etiqueta, v, e⟩ : Invalido) ∈ encontrar_invalidos serie etiqueta := by
  unfold encontrar_invalidos
  rw [List.mem_filterMap]
  refine ⟨(i, v), hm, ?_⟩
  rw [he]

lemma encontrar_invalidos_sound (serie : List (ℕ × String)) (etiqueta : String) :
    ∀ v ∈ encontrar_invalidos serie etiqueta, esInvalida v.valor := by
  intro v hv
  unfold encontrar_invalidos at hv
  rw [List.mem_filterMap] at hv
  obtain ⟨p, hp, he⟩ := hv
  cases hcv : convertir_hora p.2 with
  | ok t => rw [hcv] at he; simp at he
  | error e =>
    rw [hcv] at he
    simp only [Option.some.injEq] at he
    rw [← he]
    exact ⟨e, hcv⟩

/-- C8: validation is batch-first and fail-on-all.  If any record has an
unparseable start or end time, the flow stops with the full invalid-row
report before `procesar_excel` is ever called: the report contains one entry
(with raw value and row index) for every invalid field of every row, and
every reported entry is genuinely invalid. -/
theorem C8_validacion_por_lotes (rows : List Fila)
    (hbad : ∃ r ∈ rows, esInvalida r.inicial ∨ esInvalida r.final) :
    ∃ inv, flujo_validacion rows = Except.error inv ∧
      (∀ v ∈ inv, esInvalida v.valor) ∧
      ∀ (i : ℕ) (hi : i < rows.length),
        (esInvalida (rows.get ⟨i, hi⟩).inicial →
          ∃ e, (⟨i, "INICIAL", (rows.get ⟨i, hi⟩).inicial, e⟩ : Invalido) ∈ inv) ∧
        (esInvalida (rows.get ⟨i, hi⟩).final →
          ∃ e, (⟨i, "FINAL", (rows.get ⟨i, hi⟩).final, e⟩ : Invalido) ∈ inv) := by
  refine ⟨encontrar_invalidos ((rows.map Fila.inicial).enum) "INICIAL" ++
    encontrar_invalidos ((rows.map Fila.final).enum) "FINAL", ?_, ?_, ?_⟩
  · -- some row is invalid, so the combined report is nonempty and the gate stops
    obtain ⟨r, hr, hcase⟩ := hbad
    obtain ⟨⟨i, hi⟩, hget⟩ := List.mem_iff_get.mp hr
    have hne : encontrar_invalidos ((rows.map Fila.inicial).enum) "INICIAL" ++
        encontrar_invalidos ((rows.map Fila.final).enum) "FINAL" ≠ [] := by
      rcases hcase with ⟨e, he⟩ | ⟨e, he⟩
      · have hmi : (i, r.inicial) ∈ (rows.map Fila.inicial).enum := by
          have := mem_enum_de_get (rows.map Fila.inicial) i (by simpa using hi)
          rwa [List.get_map, hget] at this
        exact List.ne_nil_of_mem (List.mem_append.mpr (Or.inl
          (encontrar_invalidos_mem _ _ _ _ _ hmi he)))
      · have hmi : (i, r.final) ∈ (rows.map Fila.final).enum := by
          have := mem_enum_de_get (rows.map Fila.final) i (by simpa using hi)
          rwa [List.get_map, hget] at this
        exact List.ne_nil_of_mem (List.mem_append.mpr (Or.inr
          (encontrar_invalidos_mem _ _ _ _ _ hmi he)))
    simp only [flujo_validacion]
    rw [if_neg hne]
  · intro v hv
    rcases List.mem_append.mp hv with h | h
    · exact encontrar_invalidos_sound _ _ v h
    · exact encontrar_invalidos_sound _ _ v h
  · intro i hi
    constructor
    · intro ⟨e, he⟩
      refine ⟨e, List.mem_append.mpr (Or.inl (encontrar_invalidos_mem _ _ _ _ _ ?_ he))⟩
      have := mem_enum_de_get (rows.map Fila.inicial) i (by simpa using hi)
      rwa [List.get_map] at this
    · intro ⟨e, he⟩
      refine ⟨e, List.mem_append.mpr (Or.inr (encontrar_invalidos_mem _ _ _ _ _ ?_ he))⟩
      have := mem_enum_de_get (rows.map Fila.final) i (by simpa using hi)
      rwa [List.get_map] at this

theorem C8_witness :
    ∃ inv, flujo_validacion [⟨"Ana", ⟨2024, 1, 2⟩, "xx", "8am"⟩] = Except.error inv ∧
      (∀ v ∈ inv, esInvalida v.valor) ∧
      ∀ (i : ℕ) (hi : i < ([⟨"Ana", ⟨2024, 1, 2⟩, "xx", "8am"⟩] : List Fila).length),
        (esInvalida (([⟨"Ana", ⟨2024, 1, 2⟩, "xx", "8am"⟩] : List Fila).get ⟨i, hi⟩).inicial →
          ∃ e, (⟨i, "INICIAL",
            (([⟨"Ana", ⟨2024, 1, 2⟩, "xx", "8am"⟩] : List Fila).get ⟨i, hi⟩).inicial, e⟩ :
              Invalido) ∈ inv) ∧
        (esInvalida (([⟨"Ana", ⟨2024, 1, 2⟩, "xx", "8am"⟩] : List Fila).get ⟨i, hi⟩).final →
          ∃ e, (⟨i, "FINAL",
            (([⟨"Ana", ⟨2024, 1, 2⟩, "xx", "8am"⟩] : List Fila).get ⟨i, hi⟩).final, e⟩ :
              Invalido) ∈ inv) :=
  C8_validacion_por_lotes [⟨"Ana", ⟨2024, 1, 2⟩, "xx", "8am"⟩]
    ⟨⟨"Ana", ⟨2024, 1, 2⟩, "xx", "8am"⟩, by simp,
      Or.inl ⟨"Formato de hora inválido: 'xx'", rfl⟩⟩
